import Mathlib

/-!
Shallow embedding of the periscope ray-geometry engine
(`src/periscope_streamlit.py`) over the real numbers, together with
theorems settling the specification's claims about it.

The embedded core consists of:
* `unit_vector_from_angle` — angle (degrees) to unit direction vector;
* `reflect_vector` — reflection of a direction vector across an oriented
  mirror line, with re-normalization and a zero-vector sentinel;
* `intersect_ray_with_segment` — parametric ray vs. finite-segment
  intersection via Cramer's rule with a `1e-6` parallelism tolerance;
* `draw_ray_path` — the two-mirror trace, returning the ordered list of
  drawn segments (each segment a pair of endpoints).
-/

open Real

namespace Periscope

/-- A 2D point / vector, as in the source's `(x, y)` tuples. -/
abbrev Vec2 := ℝ × ℝ

/-- Embedding of `math.radians(deg)`: degrees to radians. -/
noncomputable def radians (deg : ℝ) : ℝ := deg * (π / 180)

/-- Embedding of `unit_vector_from_angle(deg)`: unit vector `(cos rad, sin rad)` for an
angle in degrees from the +x axis (CCW). -/
noncomputable def unit_vector_from_angle (deg : ℝ) : Vec2 :=
  (Real.cos (radians deg), Real.sin (radians deg))

/-- The un-normalized reflected vector `r = v - 2 (v·n) n` with
`n = (-m.y, m.x)`, exactly the `rx, ry` computed inside `reflect_vector`
before the `math.hypot` normalization step. -/
noncomputable def pre_reflect (v m : Vec2) : Vec2 :=
  let n : Vec2 := (-m.2, m.1)
  let dot := v.1 * n.1 + v.2 * n.2
  (v.1 - 2 * dot * n.1, v.2 - 2 * dot * n.2)

/-- Embedding of `reflect_vector(v, m)`: reflect direction vector `v` across a mirror
whose (unit) direction is `m`; the result is re-normalized, and the zero
vector is returned as a sentinel when the un-normalized result has zero
length (`math.hypot(rx, ry) == 0`). -/
noncomputable def reflect_vector (v m : Vec2) : Vec2 :=
  let r := pre_reflect v m
  let length := Real.sqrt (r.1 ^ 2 + r.2 ^ 2)
  if length = 0 then (0, 0) else (r.1 / length, r.2 / length)

/-- The determinant `D = -vx*my + mx*vy` of the 2×2 system
`s*v - t*m = c - p0` solved in `intersect_ray_with_segment`. -/
noncomputable def Dval (v m : Vec2) : ℝ := -v.1 * m.2 + m.1 * v.2

/-- The Cramer solution `s = (bx*(-my) - (-mx)*by) / D` (distance along the
ray) computed in `intersect_ray_with_segment`, where `b = c - p0`. -/
noncomputable def sVal (p0 v c m : Vec2) : ℝ :=
  ((c.1 - p0.1) * (-m.2) - (-m.1) * (c.2 - p0.2)) / Dval v m

/-- The Cramer solution `t = (vx*by - vy*bx) / D` (signed offset along the
mirror from its center) computed in `intersect_ray_with_segment`. -/
noncomputable def tVal (p0 v c m : Vec2) : ℝ :=
  (v.1 * (c.2 - p0.2) - v.2 * (c.1 - p0.1)) / Dval v m

/-- Embedding of `intersect_ray_with_segment(p0, v, c, m, length)`: intersection of the
ray from `p0` with direction `v` and the finite mirror segment with center
`c`, direction `m` and total length `length`.  Returns
`some (point, s, t)` or `none`, following the source's two rejection
tests (`abs(D) < 1e-6`, then `s < 0 or abs(t) > length/2`). -/
noncomputable def intersect_ray_with_segment (p0 v c m : Vec2) (length : ℝ) :
    Option (Vec2 × ℝ × ℝ) :=
  if |Dval v m| < 1e-6 then none
  else if sVal p0 v c m < 0 ∨ |tVal p0 v c m| > length / 2 then none
  else some ((p0.1 + sVal p0 v c m * v.1, p0.2 + sVal p0 v c m * v.2),
             sVal p0 v c m, tVal p0 v c m)

/-- Embedding of `draw_ray_path(top_angle_deg, bottom_angle_deg, entry_height)`: the
two-mirror trace.  Mirrors have length 150 and centers `(400, 450)` (top)
and `(400, 150)` (bottom); the incoming ray starts at `(100, entry_height)`
with direction `(1, 0)`.  Returns, in order, the segments the source plots:
either the single escape segment to `x = 750`, or the segment to the first
hit followed by either a `1000`-multiple escape segment or the segment to
the second hit and the final `1000`-multiple outgoing segment. -/
noncomputable def draw_ray_path
    (top_angle_deg bottom_angle_deg entry_height : ℝ) : List (Vec2 × Vec2) :=
  let mirror_length : ℝ := 150
  let top_center : Vec2 := (400, 450)
  let bottom_center : Vec2 := (400, 150)
  let top_m := unit_vector_from_angle top_angle_deg
  let bottom_m := unit_vector_from_angle bottom_angle_deg
  let ray_start : Vec2 := (100, entry_height)
  let ray_dir : Vec2 := (1, 0)
  match intersect_ray_with_segment ray_start ray_dir top_center top_m
      mirror_length with
  | none => [(ray_start, (750, ray_start.2))]
  | some (p1, _, _) =>
    let d1 := reflect_vector ray_dir top_m
    match intersect_ray_with_segment p1 d1 bottom_center bottom_m
        mirror_length with
    | none => [(ray_start, p1), (p1, (p1.1 + d1.1 * 1000, p1.2 + d1.2 * 1000))]
    | some (p2, _, _) =>
      let d2 := reflect_vector d1 bottom_m
      [(ray_start, p1), (p1, p2),
       (p2, (p2.1 + d2.1 * 1000, p2.2 + d2.2 * 1000))]

/-- Number of mirrors actually hit during a `draw_ray_path` run (0, 1 or 2),
determined by the same two intersection tests the trace performs. -/
noncomputable def num_hits
    (top_angle_deg bottom_angle_deg entry_height : ℝ) : ℕ :=
  match intersect_ray_with_segment (100, entry_height) (1, 0) (400, 450)
      (unit_vector_from_angle top_angle_deg) 150 with
  | none => 0
  | some (p1, _, _) =>
    match intersect_ray_with_segment p1
        (reflect_vector (1, 0) (unit_vector_from_angle top_angle_deg))
        (400, 150) (unit_vector_from_angle bottom_angle_deg) 150 with
    | none => 1
    | some _ => 2

/-- C8: `unit_vector_from_angle` returns `(cos θ, sin θ)` with θ the angle
converted to radians, is defined for every real input, and the returned
vector has magnitude 1. -/
theorem unit_vector_from_angle_spec (deg : ℝ) :
    unit_vector_from_angle deg
      = (Real.cos (deg * (π / 180)), Real.sin (deg * (π / 180))) ∧
    (unit_vector_from_angle deg).1 ^ 2 + (unit_vector_from_angle deg).2 ^ 2
      = 1 := by
  constructor
  · rfl
  · simp only [unit_vector_from_angle]
    exact Real.cos_sq_add_sin_sq (radians deg)

/-- Reflection across a line with unit direction preserves the squared norm
of the un-normalized result: `|r|² = |v|²` whenever `m` is a unit vector. -/
lemma pre_reflect_norm (v m : Vec2) (hm : m.1 ^ 2 + m.2 ^ 2 = 1) :
    (pre_reflect v m).1 ^ 2 + (pre_reflect v m).2 ^ 2 = v.1 ^ 2 + v.2 ^ 2 := by
  simp only [pre_reflect]
  linear_combination (4 * (v.1 * -m.2 + v.2 * m.1) ^ 2) * hm

/-- For unit inputs the normalization step is the identity, so
`reflect_vector` coincides with the raw reflection formula. -/
lemma reflect_eq_pre (v m : Vec2) (hm : m.1 ^ 2 + m.2 ^ 2 = 1)
    (hv : v.1 ^ 2 + v.2 ^ 2 = 1) :
    reflect_vector v m = pre_reflect v m := by
  have h : (pre_reflect v m).1 ^ 2 + (pre_reflect v m).2 ^ 2 = 1 :=
    (pre_reflect_norm v m hm).trans hv
  simp only [reflect_vector]
  rw [h, Real.sqrt_one]
  norm_num

/-- The raw reflection formula is an involution when `m` is a unit vector. -/
lemma pre_reflect_pre_reflect (v m : Vec2) (hm : m.1 ^ 2 + m.2 ^ 2 = 1) :
    pre_reflect (pre_reflect v m) m = v := by
  have h1 : (pre_reflect (pre_reflect v m) m).1 = v.1 := by
    simp only [pre_reflect]
    linear_combination (4 * (v.1 * -m.2 + v.2 * m.1) * -m.2) * hm
  have h2 : (pre_reflect (pre_reflect v m) m).2 = v.2 := by
    simp only [pre_reflect]
    linear_combination (4 * (v.1 * -m.2 + v.2 * m.1) * m.1) * hm
  exact Prod.ext h1 h2

/-- Any non-sentinel output of `reflect_vector` has squared magnitude 1. -/
lemma reflect_unit_of_ne_zero (w u : Vec2) (h : reflect_vector w u ≠ (0, 0)) :
    (reflect_vector w u).1 ^ 2 + (reflect_vector w u).2 ^ 2 = 1 := by
  by_cases hz :
      Real.sqrt ((pre_reflect w u).1 ^ 2 + (pre_reflect w u).2 ^ 2) = 0
  · exact absurd (by simp only [reflect_vector]; rw [if_pos hz]) h
  · simp only [reflect_vector]
    rw [if_neg hz]
    have hs : Real.sqrt ((pre_reflect w u).1 ^ 2 + (pre_reflect w u).2 ^ 2) ^ 2
        = (pre_reflect w u).1 ^ 2 + (pre_reflect w u).2 ^ 2 :=
      Real.sq_sqrt (by positivity)
    have hS : (pre_reflect w u).1 ^ 2 + (pre_reflect w u).2 ^ 2 ≠ 0 := by
      intro h0
      exact hz (by rw [h0, Real.sqrt_zero])
    rw [div_pow, div_pow, div_add_div_same, hs]
    exact div_self hS

/-- C5: reflection is an involution for non-degenerate inputs: for every
unit vector `v` and unit mirror direction `m`,
`reflect(reflect(v, m), m) = v`. -/
theorem reflect_involution (v m : Vec2) (hv : v.1 ^ 2 + v.2 ^ 2 = 1)
    (hm : m.1 ^ 2 + m.2 ^ 2 = 1) :
    reflect_vector (reflect_vector v m) m = v := by
  have hpre : (pre_reflect v m).1 ^ 2 + (pre_reflect v m).2 ^ 2 = 1 :=
    (pre_reflect_norm v m hm).trans hv
  rw [reflect_eq_pre v m hm hv, reflect_eq_pre (pre_reflect v m) m hm hpre]
  exact pre_reflect_pre_reflect v m hm

/-- Witness for `reflect_involution` at `v = (1,0)`, `m = (0,1)`. -/
theorem reflect_involution_witness :
    reflect_vector (reflect_vector ((1 : ℝ), (0 : ℝ)) (0, 1)) (0, 1)
      = ((1 : ℝ), (0 : ℝ)) :=
  reflect_involution (1, 0) (0, 1) (by norm_num) (by norm_num)

/-- C6: reflection preserves magnitude on unit inputs
(`|reflect(v, m)| = |v| = 1` for unit `v`, `m`), and every non-sentinel
direction produced by `reflect_vector` has magnitude 1. -/
theorem reflect_magnitude (v m : Vec2) (hv : v.1 ^ 2 + v.2 ^ 2 = 1)
    (hm : m.1 ^ 2 + m.2 ^ 2 = 1) :
    Real.sqrt ((reflect_vector v m).1 ^ 2 + (reflect_vector v m).2 ^ 2)
        = Real.sqrt (v.1 ^ 2 + v.2 ^ 2) ∧
    Real.sqrt ((reflect_vector v m).1 ^ 2 + (reflect_vector v m).2 ^ 2) = 1 ∧
    ∀ w u : Vec2, reflect_vector w u ≠ (0, 0) →
      Real.sqrt ((reflect_vector w u).1 ^ 2 + (reflect_vector w u).2 ^ 2)
        = 1 := by
  have hpre : (pre_reflect v m).1 ^ 2 + (pre_reflect v m).2 ^ 2 = 1 :=
    (pre_reflect_norm v m hm).trans hv
  have hr : reflect_vector v m = pre_reflect v m := reflect_eq_pre v m hm hv
  refine ⟨?_, ?_, ?_⟩
  · rw [hr, hpre, hv]
  · rw [hr, hpre, Real.sqrt_one]
  · intro w u h
    rw [reflect_unit_of_ne_zero w u h, Real.sqrt_one]

/-- Witness for `reflect_magnitude` at `v = (1,0)`, `m = (0,1)`. -/
theorem reflect_magnitude_witness :
    Real.sqrt ((reflect_vector ((1 : ℝ), (0 : ℝ)) (0, 1)).1 ^ 2
        + (reflect_vector ((1 : ℝ), (0 : ℝ)) (0, 1)).2 ^ 2) = 1 :=
  (reflect_magnitude (1, 0) (0, 1) (by norm_num) (by norm_num)).2.1

/-- C4: `reflect_vector` never divides by zero — when the un-normalized
reflected vector has zero length it returns the `(0,0)` sentinel, and for a
unit mirror direction this can only happen when `v` itself is the zero
vector; moreover `intersect_ray_with_segment` called with the zero
direction vector returns no intersection for every mirror. -/
theorem reflect_zero_safe (v m p0 c : Vec2) (L : ℝ)
    (hm : m.1 ^ 2 + m.2 ^ 2 = 1) :
    (Real.sqrt ((pre_reflect v m).1 ^ 2 + (pre_reflect v m).2 ^ 2) = 0 →
      reflect_vector v m = (0, 0) ∧ v = (0, 0)) ∧
    intersect_ray_with_segment p0 (0, 0) c m L = none := by
  constructor
  · intro hz
    refine ⟨by simp only [reflect_vector]; rw [if_pos hz], ?_⟩
    have hsum : (pre_reflect v m).1 ^ 2 + (pre_reflect v m).2 ^ 2 = 0 :=
      (Real.sqrt_eq_zero (by positivity)).mp hz
    have hv : v.1 ^ 2 + v.2 ^ 2 = 0 := (pre_reflect_norm v m hm).symm.trans hsum
    have h1 : v.1 = 0 := by nlinarith [sq_nonneg v.1, sq_nonneg v.2]
    have h2 : v.2 = 0 := by nlinarith [sq_nonneg v.1, sq_nonneg v.2]
    exact Prod.ext h1 h2
  · simp only [intersect_ray_with_segment, Dval]
    norm_num

/-- Witness for `reflect_zero_safe` at `v = (0,0)`, `m = (1,0)`. -/
theorem reflect_zero_safe_witness :
    reflect_vector ((0 : ℝ), (0 : ℝ)) (1, 0) = (0, 0) ∧
    intersect_ray_with_segment ((0 : ℝ), (0 : ℝ)) (0, 0) (0, 0) (1, 0) 1
      = none := by
  have h := reflect_zero_safe (0, 0) (1, 0) (0, 0) (0, 0) 1 (by norm_num)
  refine ⟨(h.1 ?_).1, h.2⟩
  simp [pre_reflect]

/-- Evaluation of `intersect_ray_with_segment` on the accepting path. -/
lemma intersect_eval (p0 v c m : Vec2) (L : ℝ)
    (hD : ¬ |Dval v m| < 1e-6)
    (hcond : ¬ (sVal p0 v c m < 0 ∨ |tVal p0 v c m| > L / 2)) :
    intersect_ray_with_segment p0 v c m L
      = some ((p0.1 + sVal p0 v c m * v.1, p0.2 + sVal p0 v c m * v.2),
              sVal p0 v c m, tVal p0 v c m) := by
  unfold intersect_ray_with_segment
  rw [if_neg hD, if_neg hcond]

/-- A ray whose direction makes a zero determinant with the mirror is
rejected by the tolerance test. -/
lemma intersect_none_of_parallel (p0 v c m : Vec2) (L : ℝ)
    (h : Dval v m = 0) :
    intersect_ray_with_segment p0 v c m L = none := by
  unfold intersect_ray_with_segment
  rw [if_pos (by rw [h]; norm_num)]

/-- C2: whenever `intersect_ray_with_segment` returns `some (pt, s, t)`,
the scalars solve the linear system `p0 + s·v = c + t·m`, with `s ≥ 0`,
`|t| ≤ L/2`, and the returned point equals `p0 + s·v`. -/
theorem intersect_sound (p0 v c m : Vec2) (L : ℝ) (pt : Vec2) (s t : ℝ)
    (hres : intersect_ray_with_segment p0 v c m L = some (pt, s, t)) :
    (p0.1 + s * v.1 = c.1 + t * m.1 ∧ p0.2 + s * v.2 = c.2 + t * m.2) ∧
    0 ≤ s ∧ |t| ≤ L / 2 ∧ pt = (p0.1 + s * v.1, p0.2 + s * v.2) := by
  unfold intersect_ray_with_segment at hres
  by_cases h1 : |Dval v m| < 1e-6
  · rw [if_pos h1] at hres
    exact absurd hres (by simp)
  rw [if_neg h1] at hres
  by_cases h2 : sVal p0 v c m < 0 ∨ |tVal p0 v c m| > L / 2
  · rw [if_pos h2] at hres
    exact absurd hres (by simp)
  rw [if_neg h2] at hres
  push_neg at h2
  simp only [Option.some.injEq, Prod.mk.injEq] at hres
  obtain ⟨hpt, hs, ht⟩ := hres
  have hD : Dval v m ≠ 0 := by
    intro h0
    exact h1 (by rw [h0]; norm_num)
  subst hs
  subst ht
  refine ⟨⟨?_, ?_⟩, h2.1, h2.2, hpt.symm⟩
  · unfold sVal tVal
    field_simp
    unfold Dval
    ring
  · unfold sVal tVal
    field_simp
    unfold Dval
    ring

/-- Witness for `intersect_sound`: the ray from the origin along `+x`
against the vertical mirror of length 2 centered at `(1, 0)`. -/
theorem intersect_sound_witness :
    ((0 : ℝ) + 1 * 1 = 1 + 0 * 0 ∧ (0 : ℝ) + 1 * 0 = 0 + 0 * 1) ∧
    (0 : ℝ) ≤ 1 ∧ |(0 : ℝ)| ≤ 2 / 2 ∧
    ((1 : ℝ), (0 : ℝ)) = ((0 : ℝ) + 1 * 1, (0 : ℝ) + 1 * 0) := by
  have hD : Dval ((1 : ℝ), (0 : ℝ)) ((0 : ℝ), (1 : ℝ)) = -1 := by
    norm_num [Dval]
  have hs : sVal ((0 : ℝ), (0 : ℝ)) ((1 : ℝ), (0 : ℝ)) ((1 : ℝ), (0 : ℝ))
      ((0 : ℝ), (1 : ℝ)) = 1 := by
    norm_num [sVal, Dval]
  have ht : tVal ((0 : ℝ), (0 : ℝ)) ((1 : ℝ), (0 : ℝ)) ((1 : ℝ), (0 : ℝ))
      ((0 : ℝ), (1 : ℝ)) = 0 := by
    norm_num [tVal, Dval]
  exact intersect_sound (0, 0) (1, 0) (1, 0) (0, 1) 2 (1, 0) 1 0
    (by rw [intersect_eval _ _ _ _ _ (by rw [hD]; norm_num)
          (by rw [hs, ht]; norm_num), hs, ht]; norm_num)

/-- C3: `intersect_ray_with_segment` returns `none` exactly when
`|D| < 1e-6`, or the solved `s` is negative, or the solved `|t|` exceeds
half the mirror length; and any ray parallel to the mirror (direction `m`
or `-m`) gets no intersection. -/
theorem intersect_none_iff (p0 v c m : Vec2) (L : ℝ) :
    (intersect_ray_with_segment p0 v c m L = none ↔
      |Dval v m| < 1e-6 ∨ sVal p0 v c m < 0 ∨ |tVal p0 v c m| > L / 2) ∧
    intersect_ray_with_segment p0 m c m L = none ∧
    intersect_ray_with_segment p0 (-m.1, -m.2) c m L = none := by
  refine ⟨?_, ?_, ?_⟩
  · constructor
    · intro hnone
      unfold intersect_ray_with_segment at hnone
      by_cases h1 : |Dval v m| < 1e-6
      · exact Or.inl h1
      rw [if_neg h1] at hnone
      by_cases h2 : sVal p0 v c m < 0 ∨ |tVal p0 v c m| > L / 2
      · exact Or.inr h2
      rw [if_neg h2] at hnone
      exact absurd hnone (by simp)
    · intro hdisj
      unfold intersect_ray_with_segment
      rcases hdisj with h | h
      · rw [if_pos h]
      · by_cases h1 : |Dval v m| < 1e-6
        · rw [if_pos h1]
        · rw [if_neg h1, if_pos h]
  · exact intersect_none_of_parallel p0 m c m L (by unfold Dval; ring)
  · exact intersect_none_of_parallel p0 (-m.1, -m.2) c m L
      (by unfold Dval; ring)

/-- Witness for `intersect_none_iff`: a ray parallel to a vertical mirror. -/
theorem intersect_none_iff_witness :
    intersect_ray_with_segment ((0 : ℝ), (0 : ℝ)) ((0 : ℝ), (1 : ℝ))
      ((5 : ℝ), (0 : ℝ)) ((0 : ℝ), (1 : ℝ)) 2 = none :=
  (intersect_none_iff (0, 0) (0, 1) (5, 0) (0, 1) 2).2.1

/-- C10: with `|D| ≥ 1e-6`, a solution lying exactly on the rejection
boundaries is accepted — `s = 0` (hit at the ray origin, with `|t|` within
bounds) yields a hit, and `|t| = L/2` (hit at a mirror endpoint, with
`s ≥ 0`) yields a hit, because both rejection comparisons are strict. -/
theorem intersect_boundary_accept (p0 v c m : Vec2) (L : ℝ)
    (hD : 1e-6 ≤ |Dval v m|) :
    (sVal p0 v c m = 0 → |tVal p0 v c m| ≤ L / 2 →
      (intersect_ray_with_segment p0 v c m L).isSome = true) ∧
    (|tVal p0 v c m| = L / 2 → 0 ≤ sVal p0 v c m →
      (intersect_ray_with_segment p0 v c m L).isSome = true) := by
  have h1 : ¬ |Dval v m| < 1e-6 := not_lt.mpr hD
  constructor
  · intro hs ht
    rw [intersect_eval p0 v c m L h1 (by push_neg; exact ⟨hs.symm.le, ht⟩)]
    rfl
  · intro ht hsge
    rw [intersect_eval p0 v c m L h1 (by push_neg; exact ⟨hsge, ht.le⟩)]
    rfl

/-- Witness for `intersect_boundary_accept`: a hit exactly at the ray
origin, and a hit exactly at a mirror endpoint. -/
theorem intersect_boundary_accept_witness :
    (intersect_ray_with_segment ((0 : ℝ), (0 : ℝ)) ((1 : ℝ), (0 : ℝ))
      ((0 : ℝ), (0 : ℝ)) ((0 : ℝ), (1 : ℝ)) 2).isSome = true ∧
    (intersect_ray_with_segment ((0 : ℝ), (0 : ℝ)) ((1 : ℝ), (0 : ℝ))
      ((0 : ℝ), (1 : ℝ)) ((0 : ℝ), (1 : ℝ)) 2).isSome = true := by
  have hD : Dval ((1 : ℝ), (0 : ℝ)) ((0 : ℝ), (1 : ℝ)) = -1 := by
    norm_num [Dval]
  constructor
  · exact (intersect_boundary_accept (0, 0) (1, 0) (0, 0) (0, 1) 2
      (by rw [hD]; norm_num)).1
      (by norm_num [sVal, Dval]) (by norm_num [tVal, Dval])
  · exact (intersect_boundary_accept (0, 0) (1, 0) (0, 1) (0, 1) 2
      (by rw [hD]; norm_num)).2
      (by norm_num [tVal, Dval]) (by norm_num [sVal, Dval])

lemma one_lt_sqrt_two : (1 : ℝ) < Real.sqrt 2 := by
  have h := Real.sqrt_lt_sqrt (by norm_num : (0 : ℝ) ≤ 1)
    (by norm_num : (1 : ℝ) < 2)
  rwa [Real.sqrt_one] at h

lemma sq_sqrt_two : Real.sqrt 2 ^ 2 = 2 := Real.sq_sqrt (by norm_num)

/-- The top mirror at its default slider value: 135° gives the direction
`(-√2/2, √2/2)`. -/
lemma uva_135 :
    unit_vector_from_angle 135 = (-(Real.sqrt 2 / 2), Real.sqrt 2 / 2) := by
  unfold unit_vector_from_angle radians
  have h : (135 : ℝ) * (π / 180) = π - π / 4 := by ring
  rw [h, Real.cos_pi_sub, Real.sin_pi_sub, Real.cos_pi_div_four,
    Real.sin_pi_div_four]

/-- The bottom mirror at its default slider value: -45° gives the direction
`(√2/2, -√2/2)`. -/
lemma uva_neg45 :
    unit_vector_from_angle (-45) = (Real.sqrt 2 / 2, -(Real.sqrt 2 / 2)) := by
  unfold unit_vector_from_angle radians
  have h : (-45 : ℝ) * (π / 180) = -(π / 4) := by ring
  rw [h, Real.cos_neg, Real.sin_neg, Real.cos_pi_div_four,
    Real.sin_pi_div_four]

/-- A vertical mirror direction: 90° gives `(0, 1)`. -/
lemma uva_90 : unit_vector_from_angle 90 = (0, 1) := by
  unfold unit_vector_from_angle radians
  have h : (90 : ℝ) * (π / 180) = π / 2 := by ring
  rw [h, Real.cos_pi_div_two, Real.sin_pi_div_two]

lemma top_m_unit :
    ((-(Real.sqrt 2 / 2), Real.sqrt 2 / 2) : Vec2).1 ^ 2
      + ((-(Real.sqrt 2 / 2), Real.sqrt 2 / 2) : Vec2).2 ^ 2 = 1 := by
  show (-(Real.sqrt 2 / 2)) ^ 2 + (Real.sqrt 2 / 2) ^ 2 = 1
  linear_combination sq_sqrt_two / 2

lemma bottom_m_unit :
    ((Real.sqrt 2 / 2, -(Real.sqrt 2 / 2)) : Vec2).1 ^ 2
      + ((Real.sqrt 2 / 2, -(Real.sqrt 2 / 2)) : Vec2).2 ^ 2 = 1 := by
  show (Real.sqrt 2 / 2) ^ 2 + (-(Real.sqrt 2 / 2)) ^ 2 = 1
  linear_combination sq_sqrt_two / 2

/-- The horizontal entry ray at height 450 hits the default top mirror
exactly at its center `(400, 450)`, with `s = 300`, `t = 0`. -/
lemma hit_top_450 :
    intersect_ray_with_segment (100, 450) (1, 0) (400, 450)
      (-(Real.sqrt 2 / 2), Real.sqrt 2 / 2) 150
      = some (((400 : ℝ), (450 : ℝ)), 300, 0) := by
  have hq0 : (0 : ℝ) < Real.sqrt 2 := lt_trans one_pos one_lt_sqrt_two
  have hD : Dval ((1 : ℝ), (0 : ℝ)) (-(Real.sqrt 2 / 2), Real.sqrt 2 / 2)
      = -(Real.sqrt 2 / 2) := by
    show -(1 : ℝ) * (Real.sqrt 2 / 2) + -(Real.sqrt 2 / 2) * 0
      = -(Real.sqrt 2 / 2)
    ring
  have hDne : ¬ |Dval ((1 : ℝ), (0 : ℝ))
      (-(Real.sqrt 2 / 2), Real.sqrt 2 / 2)| < 1e-6 := by
    rw [hD, abs_neg, abs_of_pos (by positivity)]
    rw [not_lt]
    nlinarith [one_lt_sqrt_two]
  have hs : sVal (100, 450) (1, 0) (400, 450)
      (-(Real.sqrt 2 / 2), Real.sqrt 2 / 2) = 300 := by
    unfold sVal
    rw [hD]
    show (((400 : ℝ) - 100) * (-(Real.sqrt 2 / 2))
        - -(-(Real.sqrt 2 / 2)) * ((450 : ℝ) - 450)) / -(Real.sqrt 2 / 2)
      = 300
    field_simp
    ring
  have ht : tVal (100, 450) (1, 0) (400, 450)
      (-(Real.sqrt 2 / 2), Real.sqrt 2 / 2) = 0 := by
    unfold tVal
    rw [hD]
    show ((1 : ℝ) * ((450 : ℝ) - 450) - 0 * ((400 : ℝ) - 100))
        / -(Real.sqrt 2 / 2) = 0
    norm_num
  rw [intersect_eval _ _ _ _ _ hDne (by rw [hs, ht]; norm_num), hs, ht]
  norm_num

/-- Reflecting the horizontal ray off the default top mirror gives the
straight-down direction `(0, -1)`. -/
lemma reflect_top :
    reflect_vector (1, 0) (-(Real.sqrt 2 / 2), Real.sqrt 2 / 2)
      = ((0 : ℝ), (-1 : ℝ)) := by
  rw [reflect_eq_pre _ _ top_m_unit (by norm_num)]
  unfold pre_reflect
  refine Prod.ext ?_ ?_
  · show (1 : ℝ) - 2 * ((1 : ℝ) * -(Real.sqrt 2 / 2)
        + 0 * -(Real.sqrt 2 / 2)) * -(Real.sqrt 2 / 2) = 0
    linear_combination (-1 / 2) * sq_sqrt_two
  · show (0 : ℝ) - 2 * ((1 : ℝ) * -(Real.sqrt 2 / 2)
        + 0 * -(Real.sqrt 2 / 2)) * -(Real.sqrt 2 / 2) = -1
    linear_combination (-1 / 2) * sq_sqrt_two

/-- The straight-down ray from `(400, 450)` hits the default bottom mirror
exactly at its center `(400, 150)`, with `s = 300`, `t = 0`. -/
lemma hit_bottom_150 :
    intersect_ray_with_segment (400, 450) (0, -1) (400, 150)
      (Real.sqrt 2 / 2, -(Real.sqrt 2 / 2)) 150
      = some (((400 : ℝ), (150 : ℝ)), 300, 0) := by
  have hD : Dval ((0 : ℝ), (-1 : ℝ)) (Real.sqrt 2 / 2, -(Real.sqrt 2 / 2))
      = -(Real.sqrt 2 / 2) := by
    show -(0 : ℝ) * (-(Real.sqrt 2 / 2)) + Real.sqrt 2 / 2 * (-1)
      = -(Real.sqrt 2 / 2)
    ring
  have hDne : ¬ |Dval ((0 : ℝ), (-1 : ℝ))
      (Real.sqrt 2 / 2, -(Real.sqrt 2 / 2))| < 1e-6 := by
    rw [hD, abs_neg, abs_of_pos (by positivity)]
    rw [not_lt]
    nlinarith [one_lt_sqrt_two]
  have hs : sVal (400, 450) (0, -1) (400, 150)
      (Real.sqrt 2 / 2, -(Real.sqrt 2 / 2)) = 300 := by
    unfold sVal
    rw [hD]
    show (((400 : ℝ) - 400) * (-(-(Real.sqrt 2 / 2)))
        - -(Real.sqrt 2 / 2) * ((150 : ℝ) - 450)) / -(Real.sqrt 2 / 2)
      = 300
    field_simp
    ring
  have ht : tVal (400, 450) (0, -1) (400, 150)
      (Real.sqrt 2 / 2, -(Real.sqrt 2 / 2)) = 0 := by
    unfold tVal
    rw [hD]
    show ((0 : ℝ) * ((150 : ℝ) - 450) - (-1) * ((400 : ℝ) - 400))
        / -(Real.sqrt 2 / 2) = 0
    norm_num
  rw [intersect_eval _ _ _ _ _ hDne (by rw [hs, ht]; norm_num), hs, ht]
  norm_num

/-- Reflecting the downward ray off the default bottom mirror restores the
horizontal direction `(1, 0)`. -/
lemma reflect_bottom :
    reflect_vector (0, -1) (Real.sqrt 2 / 2, -(Real.sqrt 2 / 2))
      = ((1 : ℝ), (0 : ℝ)) := by
  rw [reflect_eq_pre _ _ bottom_m_unit (by norm_num)]
  unfold pre_reflect
  refine Prod.ext ?_ ?_
  · show (0 : ℝ) - 2 * ((0 : ℝ) * -(-(Real.sqrt 2 / 2))
        + (-1) * (Real.sqrt 2 / 2)) * -(-(Real.sqrt 2 / 2)) = 1
    linear_combination sq_sqrt_two / 2
  · show (-1 : ℝ) - 2 * ((0 : ℝ) * -(-(Real.sqrt 2 / 2))
        + (-1) * (Real.sqrt 2 / 2)) * (Real.sqrt 2 / 2) = 0
    linear_combination sq_sqrt_two / 2

/-- C1: in the default configuration (top 135°, bottom -45°, entry height
450) the ray hits the top mirror exactly at `(400, 450)`, reflects to the
downward direction `(0, -1)`, hits the bottom mirror exactly at
`(400, 150)`, reflects back to the horizontal direction `(1, 0)`, and the
full traced path consists of exactly those three segments. -/
theorem scenario_one :
    intersect_ray_with_segment (100, 450) (1, 0) (400, 450)
        (unit_vector_from_angle 135) 150
      = some (((400 : ℝ), (450 : ℝ)), 300, 0) ∧
    reflect_vector (1, 0) (unit_vector_from_angle 135) = ((0 : ℝ), (-1 : ℝ)) ∧
    (reflect_vector (1, 0) (unit_vector_from_angle 135)).2 < 0 ∧
    intersect_ray_with_segment (400, 450) (0, -1) (400, 150)
        (unit_vector_from_angle (-45)) 150
      = some (((400 : ℝ), (150 : ℝ)), 300, 0) ∧
    reflect_vector (0, -1) (unit_vector_from_angle (-45))
      = ((1 : ℝ), (0 : ℝ)) ∧
    draw_ray_path 135 (-45) 450
      = [(((100 : ℝ), (450 : ℝ)), ((400 : ℝ), (450 : ℝ))),
         (((400 : ℝ), (450 : ℝ)), ((400 : ℝ), (150 : ℝ))),
         (((400 : ℝ), (150 : ℝ)), ((1400 : ℝ), (150 : ℝ)))] := by
  have h1 := hit_top_450
  have h2 := reflect_top
  have h3 := hit_bottom_150
  have h4 := reflect_bottom
  refine ⟨by rw [uva_135]; exact h1, by rw [uva_135]; exact h2,
    by rw [uva_135, h2]; norm_num, by rw [uva_neg45]; exact h3,
    by rw [uva_neg45]; exact h4, ?_⟩
  simp only [draw_ray_path, uva_135, uva_neg45, h1, h2, h3, h4]
  norm_num

/-- A ray is rejected when the solved parameters fail the bounds test. -/
lemma intersect_none_of_reject (p0 v c m : Vec2) (L : ℝ)
    (h : sVal p0 v c m < 0 ∨ |tVal p0 v c m| > L / 2) :
    intersect_ray_with_segment p0 v c m L = none := by
  unfold intersect_ray_with_segment
  by_cases h1 : |Dval v m| < 1e-6
  · rw [if_pos h1]
  · rw [if_neg h1, if_pos h]

/-- C7: when the ray misses a mirror, the trace emits exactly one escape
segment from the ray's current origin to `origin + K·direction` (with
`K = 650` for the entry ray, whose direction is `(1, 0)`, and `K = 1000`
after the first bounce) and processes no further mirrors; in particular
an entry ray that misses the top mirror produces the single rightward
escape segment from the entry point. -/
theorem escape_behavior (ta ba h : ℝ) :
    (intersect_ray_with_segment (100, h) (1, 0) (400, 450)
        (unit_vector_from_angle ta) 150 = none →
      draw_ray_path ta ba h
        = [(((100 : ℝ), h), ((100 : ℝ) + 650 * 1, h + 650 * 0))]) ∧
    (∀ p1 : Vec2, ∀ s t : ℝ,
      intersect_ray_with_segment (100, h) (1, 0) (400, 450)
          (unit_vector_from_angle ta) 150 = some (p1, s, t) →
      intersect_ray_with_segment p1
          (reflect_vector (1, 0) (unit_vector_from_angle ta)) (400, 150)
          (unit_vector_from_angle ba) 150 = none →
      draw_ray_path ta ba h
        = [(((100 : ℝ), h), p1),
           (p1, (p1.1 + (reflect_vector (1, 0) (unit_vector_from_angle ta)).1
                   * 1000,
                 p1.2 + (reflect_vector (1, 0) (unit_vector_from_angle ta)).2
                   * 1000))]) := by
  constructor
  · intro hmiss
    simp only [draw_ray_path, hmiss]
    norm_num
  · intro p1 s t h1 h2
    simp only [draw_ray_path, h1, h2]

/-- Witness for `escape_behavior`: an entry ray at height 100 misses the
vertical (90°) top mirror and escapes rightward; with the default top
mirror and a vertical bottom mirror the reflected downward ray is parallel
to the bottom mirror and escapes downward after one hit. -/
theorem escape_behavior_witness :
    draw_ray_path 90 (-45) 100
      = [(((100 : ℝ), (100 : ℝ)), ((750 : ℝ), (100 : ℝ)))] ∧
    draw_ray_path 135 90 450
      = [(((100 : ℝ), (450 : ℝ)), ((400 : ℝ), (450 : ℝ))),
         (((400 : ℝ), (450 : ℝ)), ((400 : ℝ), (-550 : ℝ)))] := by
  constructor
  · have hmiss : intersect_ray_with_segment (100, 100) (1, 0) (400, 450)
        (unit_vector_from_angle 90) 150 = none := by
      rw [uva_90]
      apply intersect_none_of_reject
      right
      have ht : tVal (100, 100) (1, 0) (400, 450) ((0 : ℝ), (1 : ℝ))
          = -350 := by
        unfold tVal Dval
        norm_num
      rw [ht]
      norm_num
    have h := (escape_behavior 90 (-45) 100).1 hmiss
    rw [h]
    norm_num
  · have h1 : intersect_ray_with_segment (100, 450) (1, 0) (400, 450)
        (unit_vector_from_angle 135) 150
        = some (((400 : ℝ), (450 : ℝ)), 300, 0) := by
      rw [uva_135]
      exact hit_top_450
    have h2 : intersect_ray_with_segment ((400 : ℝ), (450 : ℝ))
        (reflect_vector (1, 0) (unit_vector_from_angle 135)) (400, 150)
        (unit_vector_from_angle 90) 150 = none := by
      rw [uva_135, reflect_top, uva_90]
      exact intersect_none_of_parallel _ _ _ _ _ (by unfold Dval; norm_num)
    have h := (escape_behavior 135 90 450).2 (400, 450) 300 0 h1 h2
    rw [h, uva_135, reflect_top]
    norm_num

/-- C9: every trace run terminates with an ordered list of between 1 and 3
segments, the count being exactly the number of mirrors hit plus one. -/
theorem trace_length (ta ba h : ℝ) :
    1 ≤ (draw_ray_path ta ba h).length ∧
    (draw_ray_path ta ba h).length ≤ 3 ∧
    (draw_ray_path ta ba h).length = num_hits ta ba h + 1 := by
  simp only [draw_ray_path, num_hits]
  cases hA : intersect_ray_with_segment (100, h) (1, 0) (400, 450)
      (unit_vector_from_angle ta) 150 with
  | none => simp
  | some val =>
    obtain ⟨p1, s, t⟩ := val
    cases hB : intersect_ray_with_segment p1
        (reflect_vector (1, 0) (unit_vector_from_angle ta)) (400, 150)
        (unit_vector_from_angle ba) 150 with
    | none => simp [hB]
    | some val2 =>
      obtain ⟨p2, s2, t2⟩ := val2
      simp [hB]

end Periscope
